import Mathlib

/-!
A verification development for the FSM-driven interactor core
(Region / Action / FSMInteractor).  The TypeScript classes are shallowly
embedded: JS numbers become `ℚ` (the code only compares and subtracts them),
JS object identity becomes an explicit `id : Nat` field, the process-wide
image cache becomes an association list threaded through the operations, and
the asynchronous image-load lifecycle becomes an explicit two-phase step
machine (synchronous prefix, then a completion step for the pending load).
-/

namespace SSUI

/-- Model of an HTMLImageElement that has finished loading: just its natural
dimensions (all the core reads from it). -/
structure Img where
  width : ℚ
  height : ℚ
deriving DecidableEq

/-- A freshly constructed `new Image()` object, before any load completes
(natural size 0x0). -/
def blankImg : Img := ⟨0, 0⟩

/-- Model of `Region`: the mutable fields of the TypeScript class.  `id`
stands for JavaScript object identity (two distinct Region objects have
distinct ids); `parent` holds the identity of the owning FSM, if any. -/
structure Region where
  id : Nat
  name : String
  x : ℚ
  y : ℚ
  w : ℚ
  h : ℚ
  resizedByImage : Bool
  imageLoc : String
  loaded : Bool
  loadError : Bool
  image : Option Img
  parent : Option Nat
deriving DecidableEq

/-- `Region.pick(localX, localY)`:
`return (0<=localX) && (localX <= this.w) && (0<=localY) && (localY <= this.h)`. -/
def Region.pick (r : Region) (localX localY : ℚ) : Bool :=
  (0 ≤ localX) && (localX ≤ r.w) && (0 ≤ localY) && (localY ≤ r.h)

/-- The FSM as the dispatch engine sees it: its ordered region list
(ordering = drawing order; later entries draw on top). -/
structure FSM where
  regions : List Region

/-- The loop body of `FSMInteractor.pick`: for each region in draw order,
translate the point into region coordinates, pick-test, and `unshift`
(prepend) hits onto the accumulating pick list. -/
def pickLoop (lx ly : ℚ) : List Region → List Region → List Region
  | [], acc => acc
  | r :: rest, acc =>
      pickLoop lx ly rest (if r.pick (lx - r.x) (ly - r.y) then r :: acc else acc)

/-- `FSMInteractor.pick(localX, localY)`: empty when there is no FSM,
otherwise the unshift-loop over the FSM's regions starting from `[]`. -/
def FSMInteractor.pick (fsm : Option FSM) (lx ly : ℚ) : List Region :=
  match fsm with
  | none => []
  | some f => pickLoop lx ly f.regions []

/-- Unfolding the pick loop: it prepends the reversed filtered list. -/
lemma pickLoop_eq (lx ly : ℚ) (rs acc : List Region) :
    pickLoop lx ly rs acc =
      (rs.filter (fun r => r.pick (lx - r.x) (ly - r.y))).reverse ++ acc := by
  induction rs generalizing acc with
  | nil => simp [pickLoop]
  | cons r rest ih =>
      by_cases h : r.pick (lx - r.x) (ly - r.y)
      · simp [pickLoop, h, ih]
      · simp [pickLoop, h, ih]

/-- `FSMInteractor.pick` with an FSM present returns the regions whose local
pick test succeeds, in reverse draw order. -/
lemma fsmPick_eq (f : FSM) (lx ly : ℚ) :
    FSMInteractor.pick (some f) lx ly =
      (f.regions.filter (fun r => r.pick (lx - r.x) (ly - r.y))).reverse := by
  simp [FSMInteractor.pick, pickLoop_eq]

/-- The semantic event types forwarded to `fsm.actOnEvent`. -/
inductive EventType where
  | enter | exit | press | move_inside | release | release_none | rightClick
deriving DecidableEq

/-- The raw event kinds accepted by `dispatchRawEvent`. -/
inductive RawKind where
  | press | move | release | rightClick
deriving DecidableEq

/-- One `fsm.actOnEvent(evtType, region?)` call: the event type and the region
argument (`none` for the region-less `release_none` call). -/
abbrev Dispatched := EventType × Option Region

/-- The kind-specific tail of `dispatchRawEvent`'s switch statement, as the
list of `actOnEvent` calls it makes (in order) given the current pick list. -/
def kindEvents (what : RawKind) (curr : List Region) : List Dispatched :=
  match what with
  | .rightClick => curr.map (fun r => (EventType.rightClick, some r))
  | .press => curr.map (fun r => (EventType.press, some r))
  | .move => curr.map (fun r => (EventType.move_inside, some r))
  | .release =>
      if curr.length > 0 then curr.map (fun r => (EventType.release, some r))
      else [(EventType.release_none, none)]

/-- Result of one `dispatchRawEvent` call: the ordered trace of `actOnEvent`
calls, the new `_bookkeeping` list, and the number of `damage()` calls made
directly by `dispatchRawEvent` itself (via the `bookkeeping` setter; the
setter compares array references, and `currRegions` is always a fresh array,
so the assignment at the end always damages once). -/
structure DispatchResult where
  trace : List Dispatched
  bookkeeping : List Region
  damageCount : Nat
deriving DecidableEq

/-- `FSMInteractor.dispatchRawEvent(what, localX, localY, evt)` over an
explicit previous-frame bookkeeping list `bk`.  With no FSM it returns at
once; otherwise it picks, diffs against `bk` (`includes` = list membership by
object identity), emits all exit events, then all enter events, then the
kind-specific events, and replaces the bookkeeping with the current pick. -/
def dispatchRawEvent (fsm : Option FSM) (bk : List Region) (what : RawKind)
    (lx ly : ℚ) : DispatchResult :=
  match fsm with
  | none => ⟨[], bk, 0⟩
  | some f =>
      let curr := FSMInteractor.pick (some f) lx ly
      let entered := curr.filter (fun r => decide (r ∉ bk))
      let exited := bk.filter (fun r => decide (r ∉ curr))
      ⟨exited.map (fun r => (EventType.exit, some r)) ++
         entered.map (fun r => (EventType.enter, some r)) ++
         kindEvents what curr,
       curr, 1⟩

/-- Filtering a homogeneous event-map for its own event type keeps it all. -/
lemma filter_evtMap_self (t : EventType) (rs : List Region) :
    (rs.map (fun r => ((t, some r) : Dispatched))).filter
        (fun e => decide (e.1 = t)) =
      rs.map (fun r => ((t, some r) : Dispatched)) := by
  induction rs with
  | nil => rfl
  | cons r rest ih => simp [ih]

/-- Filtering a homogeneous event-map for a different event type gives `[]`. -/
lemma filter_evtMap_ne (t t' : EventType) (h : t ≠ t') (rs : List Region) :
    (rs.map (fun r => ((t, some r) : Dispatched))).filter
        (fun e => decide (e.1 = t')) = [] := by
  induction rs with
  | nil => rfl
  | cons r rest ih => simp [h, ih]

/-- Counting a different event type over a homogeneous event-map gives 0. -/
lemma countP_evtMap_ne (t t' : EventType) (h : t ≠ t') (rs : List Region) :
    (rs.map (fun r => ((t, some r) : Dispatched))).countP
        (fun e => decide (e.1 = t')) = 0 := by
  rw [List.countP_eq_length_filter, filter_evtMap_ne t t' h]
  rfl

/-- The process-wide image cache (`Region._imageCache`), as an association
list with the newest entry first (`Map.set` = prepend, `Map.has`/`Map.get` =
first hit).  A `none` value is the absent marker recorded for a failed
load. -/
abbrev ImageCache := List (String × Option Img)

/-- `Region._imageIsCached(imageLoc)` = `_imageCache.has(imageLoc)`. -/
def ImageCache.imageIsCached (c : ImageCache) (loc : String) : Bool :=
  (c.find? (fun e => e.1 == loc)).isSome

/-- `Region._imageFromCache(imageLoc)` = `_imageCache.get(imageLoc)`
(`undefined` both for a missing key and for a cached absent marker). -/
def ImageCache.imageFromCache (c : ImageCache) (loc : String) : Option Img :=
  match c.find? (fun e => e.1 == loc) with
  | some e => e.2
  | none => none

/-- `Region._cacheImage(imageLoc, img)` = `_imageCache.set(imageLoc, img)`. -/
def ImageCache.cacheImage (c : ImageCache) (loc : String) (img : Option Img) :
    ImageCache :=
  (loc, img) :: c

/-- `Region._resizeFromImage()`: when the region is resized by its image, is
loaded, and has a (truthy) image object, assign `size = {w: image.width,
h: image.height}`; the `size` setter damages exactly when a component
differs.  Returns the updated region and the number of `damage()` calls. -/
def Region.resizeFromImage (r : Region) : Region × Nat :=
  match r.image with
  | some img =>
      if r.resizedByImage && r.loaded then
        if img.width = r.w ∧ img.height = r.h then (r, 0)
        else ({ r with w := img.width, h := img.height }, 1)
      else (r, 0)
  | none => (r, 0)

/-- Where the synchronous prefix of `Region._startImageLoad` leaves the
method: completed (empty location or cache hit), or suspended at the `await`
for the load of `loc` (the value assigned to `img.src`). -/
inductive LoadPhase where
  | done
  | awaiting (loc : String)
deriving DecidableEq

/-- The synchronous prefix of `Region._startImageLoad` (everything up to the
`await`).  Empty location: no image, `loaded=true`, `loadError=false`,
resize, damage.  Cache hit: adopt the cached value (which is `undefined`
for a cached failure marker) as the image, `loaded=true`, `loadError=false`,
resize, damage.  Cache miss: `this._image = new Image()`, `loaded=false`,
`loadError=false`, then suspend awaiting the load of the current location.
Returns (region, cache, damage calls, phase). -/
def startImageLoadSync (r : Region) (cache : ImageCache) :
    Region × ImageCache × Nat × LoadPhase :=
  if r.imageLoc = "" then
    let r1 := { r with image := none, loaded := true, loadError := false }
    let p := r1.resizeFromImage
    (p.1, cache, p.2 + 1, .done)
  else if cache.imageIsCached r.imageLoc then
    let r1 := { r with image := cache.imageFromCache r.imageLoc,
                       loaded := true, loadError := false }
    let p := r1.resizeFromImage
    (p.1, cache, p.2 + 1, .done)
  else
    ({ r with image := some blankImg, loaded := false, loadError := false },
     cache, 0, .awaiting r.imageLoc)

/-- The load environment: what fetching each location yields (`some img` =
the resource loads with those natural dimensions, `none` = the load
fails). -/
def LoadEnv := String → Option Img

/-- Completion of a pending `_startImageLoad`: the `onload`/`onerror`
callback, followed by the code after the `await` when that code runs.
On success, `onload` resolves the promise, sets `loaded = true`, re-sizes;
the continuation then caches `this.loadError ? undefined : this.image`
under the current `this.imageLoc` and calls `damage()`.  On failure,
`onerror` rejects the awaited promise and sets `loadError = true`,
`loaded = true` (and `Err.emit`s); the rejected `await` throws out of the
async method, so the `_cacheImage` line and the final `damage()` after the
`await` never run.  Returns (region, cache, damage calls). -/
def completeImageLoad (env : LoadEnv) (loc : String) (r : Region)
    (cache : ImageCache) : Region × ImageCache × Nat :=
  match env loc with
  | some img =>
      let r1 := { r with image := some img, loaded := true }
      let p := r1.resizeFromImage
      (p.1, cache.cacheImage p.1.imageLoc (if p.1.loadError then none else p.1.image),
       p.2 + 1)
  | none =>
      ({ r with loadError := true, loaded := true }, cache, 0)

/-- The `Region` constructor: clamps a missing/negative size to 0 (recording
`resizedByImage`), initializes `loaded = false`, `loadError = false`, and
calls `_startImageLoad()`, whose synchronous prefix runs before the
constructor returns. -/
def mkRegion (id : Nat) (name imageLoc : String) (x y w h : ℚ)
    (parent : Option Nat) (cache : ImageCache) :
    Region × ImageCache × Nat × LoadPhase :=
  startImageLoadSync
    { id := id, name := name, x := x, y := y,
      w := if w < 0 then 0 else w, h := if h < 0 then 0 else h,
      resizedByImage := decide (w < 0) || decide (h < 0),
      imageLoc := imageLoc, loaded := false, loadError := false,
      image := none, parent := parent }
    cache

/-- `Region.x` setter: `if (!(this._x === v)) { this._x = v; this.damage(); }`.
Returns the region and the number of `damage()` calls. -/
def Region.setX (r : Region) (v : ℚ) : Region × Nat :=
  if r.x = v then (r, 0) else ({ r with x := v }, 1)

/-- `Region.y` setter (same short-circuit shape as `x`). -/
def Region.setY (r : Region) (v : ℚ) : Region × Nat :=
  if r.y = v then (r, 0) else ({ r with y := v }, 1)

/-- `Region.w` setter (same short-circuit shape as `x`). -/
def Region.setW (r : Region) (v : ℚ) : Region × Nat :=
  if r.w = v then (r, 0) else ({ r with w := v }, 1)

/-- `Region.h` setter (same short-circuit shape as `x`). -/
def Region.setH (r : Region) (v : ℚ) : Region × Nat :=
  if r.h = v then (r, 0) else ({ r with h := v }, 1)

/-- `Region.parent` setter: object-identity short-circuit, damage on
change. -/
def Region.setParent (r : Region) (v : Option Nat) : Region × Nat :=
  if r.parent = v then (r, 0) else ({ r with parent := v }, 1)

/-- `Region.imageLoc` setter:
`if (v !== this._imageLoc) { this._imageLoc = v; this._startImageLoad(); }`.
Returns (region, cache, damage calls, phase). -/
def Region.setImageLoc (r : Region) (v : String) (cache : ImageCache) :
    Region × ImageCache × Nat × LoadPhase :=
  if v = r.imageLoc then (r, cache, 0, .done)
  else startImageLoadSync { r with imageLoc := v } cache

/-- A region together with the shared cache, the FIFO queue of its pending
asynchronous loads, and the cumulative count of its `damage()` calls. -/
structure RegionWorld where
  reg : Region
  cache : ImageCache
  pending : List String
  damage : Nat
deriving DecidableEq

/-- The observable operations on a `Region` after construction: the public
mutators, and delivery of the outcome of the oldest pending load
(`completeLoad`; a no-op when nothing is pending). -/
inductive RegionOp where
  | setX (v : ℚ)
  | setY (v : ℚ)
  | setW (v : ℚ)
  | setH (v : ℚ)
  | setParent (v : Option Nat)
  | setImageLoc (v : String)
  | completeLoad

/-- One observable step of a region's lifecycle. -/
def stepRegion (env : LoadEnv) (w : RegionWorld) : RegionOp → RegionWorld
  | .setX v => ⟨(w.reg.setX v).1, w.cache, w.pending, w.damage + (w.reg.setX v).2⟩
  | .setY v => ⟨(w.reg.setY v).1, w.cache, w.pending, w.damage + (w.reg.setY v).2⟩
  | .setW v => ⟨(w.reg.setW v).1, w.cache, w.pending, w.damage + (w.reg.setW v).2⟩
  | .setH v => ⟨(w.reg.setH v).1, w.cache, w.pending, w.damage + (w.reg.setH v).2⟩
  | .setParent v =>
      ⟨(w.reg.setParent v).1, w.cache, w.pending, w.damage + (w.reg.setParent v).2⟩
  | .setImageLoc v =>
      let q := w.reg.setImageLoc v w.cache
      ⟨q.1, q.2.1, w.pending ++ (match q.2.2.2 with
         | .done => [] | .awaiting loc => [loc]), w.damage + q.2.2.1⟩
  | .completeLoad =>
      match w.pending with
      | [] => w
      | loc :: rest =>
          let q := completeImageLoad env loc w.reg w.cache
          ⟨q.1, q.2.1, rest, w.damage + q.2.2⟩

/-- Run a list of observable steps. -/
def runRegionOps (env : LoadEnv) (w : RegionWorld) : List RegionOp → RegionWorld
  | [] => w
  | op :: ops => runRegionOps env (stepRegion env w op) ops

/-- The world right after the `Region` constructor returns. -/
def initRegionWorld (id : Nat) (name imageLoc : String) (x y w h : ℚ)
    (parent : Option Nat) (cache : ImageCache) : RegionWorld :=
  let q := mkRegion id name imageLoc x y w h parent cache
  ⟨q.1, q.2.1, (match q.2.2.2 with | .done => [] | .awaiting loc => [loc]), q.2.2.1⟩

/-- The closed action vocabulary, `actionTypeStrings` of src/src/Action.ts. -/
def actionTypeStrings : List String :=
  ["set_image", "clear_image", "none", "print", "print_event",
   "select_lineBrush", "draw_line", "draw_rect", "draw_circle", "erase",
   "stopCurrentDrawing", "select_color", "draw_free", "move_menu"]

/-- The observable effects an `Action.execute` call performs.  `clear_image`
assigns `onRegion.imageLoc = ""`, i.e. `setImage rid ""`.  The `console.log`
output of `print`/`print_event` is those actions' documented effect; the two
unconditional tracing logs at the top of the method are not modeled. -/
inductive Effect where
  | setImage (regionId : Nat) (loc : String)
  | print (s : String)
  | printEvent (param : String) (evtType : EventType) (evtReg : Option Nat)
  | startDraw (regionId : Nat) (tool : String)
  | removeListeners (regionId : Nat)
  | showColorWheel (regionId : Nat)
  | moveMenu (regionId : Nat)
deriving DecidableEq

/-- Model of `Action`: `actType` is a runtime string (the TypeScript union
type is erased at runtime and `execute` dispatches on the string), `onRegion`
holds the bound region's identity, `regionLs` the list stored by
`bindRegion`. -/
structure Action where
  actType : String
  onRegionName : String
  param : String
  onRegion : Option Nat
  regionLs : List Region
deriving DecidableEq

/-- `Action.execute(evtType, evtReg?, evt?)` of src/src/Action.ts: return
early for `none`, then switch on the action type.  The switch has NO default
case, so an action type matching no case — one outside the vocabulary, and
also `select_lineBrush`, which is in the vocabulary but has no case — falls
through and the method returns normally.  `Except.error` models a thrown
exception; this version of the method never throws. -/
def Action.execute (a : Action) (evtType : EventType) (evtReg : Option Nat) :
    Except String (List Effect) :=
  if a.actType = "none" then .ok []
  else if a.actType = "set_image" then
    .ok (match a.onRegion with | some rid => [.setImage rid a.param] | none => [])
  else if a.actType = "clear_image" then
    .ok (match a.onRegion with | some rid => [.setImage rid ""] | none => [])
  else if a.actType = "print" then .ok [.print a.param]
  else if a.actType = "print_event" then .ok [.printEvent a.param evtType evtReg]
  else if a.actType = "draw_line" then
    .ok (match a.onRegion with | some rid => [.startDraw rid "line"] | none => [])
  else if a.actType = "draw_rect" then
    .ok (match a.onRegion with | some rid => [.startDraw rid "rect"] | none => [])
  else if a.actType = "draw_circle" then
    .ok (match a.onRegion with | some rid => [.startDraw rid "circle"] | none => [])
  else if a.actType = "erase" then
    .ok (match a.onRegion with | some rid => [.startDraw rid "erase"] | none => [])
  else if a.actType = "stopCurrentDrawing" then
    .ok (match a.onRegion with | some rid => [.removeListeners rid] | none => [])
  else if a.actType = "select_color" then
    .ok (match a.onRegion with | some rid => [.showColorWheel rid] | none => [])
  else if a.actType = "draw_free" then
    .ok (match a.onRegion with | some rid => [.startDraw rid "free"] | none => [])
  else if a.actType = "move_menu" then
    .ok (match a.onRegion with | some rid => [.moveMenu rid] | none => [])
  else .ok []

/-- The message `Action.bindRegion` emits through `Err.emit` when a required
region is missing (the source text also quotes the region name). -/
def bindErrMsg (a : Action) : String :=
  "Region " ++ a.onRegionName ++ " in action does not match any region."

/-- The search loop of `Action.bindRegion`: the first region whose `name`
equals the target name is bound and the method returns at once; after an
unsuccessful loop, region-optional types (`none`, `print`, `print_event`)
set `onRegion` to undefined silently, any other type emits a binding error
(but the method still returns normally).  Returns the updated action and the
diagnostics emitted. -/
def bindRegionLoop (a : Action) : List Region → Action × List String
  | [] =>
      if a.actType = "none" ∨ a.actType = "print" ∨ a.actType = "print_event" then
        ({ a with onRegion := none }, [])
      else (a, [bindErrMsg a])
  | r :: rest =>
      if r.name = a.onRegionName then ({ a with onRegion := some r.id }, [])
      else bindRegionLoop a rest

/-- `Action.bindRegion(regionList)`: store the region list in `_regionLs`,
then run the linear search. -/
def Action.bindRegion (a : Action) (regionList : List Region) :
    Action × List String :=
  bindRegionLoop { a with regionLs := regionList } regionList

/-- C4: for every Region `r` and point `(x, y)`, `r.pick x y` is true iff
`0 ≤ x ≤ r.w` and `0 ≤ y ≤ r.h` (closed interval, both edges inclusive);
in particular, for the nonnegative sizes regions carry, the four boundary
corners `(0,0)`, `(w,0)`, `(0,h)`, `(w,h)` are inside. -/
theorem region_pick_iff (r : Region) (x y : ℚ) :
    (r.pick x y = true ↔ 0 ≤ x ∧ x ≤ r.w ∧ 0 ≤ y ∧ y ≤ r.h) ∧
    (0 ≤ r.w → 0 ≤ r.h →
      r.pick 0 0 = true ∧ r.pick r.w 0 = true ∧ r.pick 0 r.h = true ∧
        r.pick r.w r.h = true) := by
  constructor
  · simp [Region.pick, and_assoc]
  · intro hw hh
    simp [Region.pick, hw, hh, le_refl]

/-- C4 witness: at the concrete region of size 10 x 5, the far corner
`(10, 5)` picks true, with the nonnegativity hypotheses discharged. -/
theorem region_pick_iff_witness :
    Region.pick ⟨1, "R", 0, 0, 10, 5, false, "", true, false, none, none⟩
        10 5 = true :=
  ((region_pick_iff ⟨1, "R", 0, 0, 10, 5, false, "", true, false, none, none⟩
      0 0).2 (by norm_num) (by norm_num)).2.2.2

/-- C5: `FSMInteractor.pick` returns exactly the regions whose translated
pick test `r.pick (localX - r.x, localY - r.y)` succeeds, in reverse of the
FSM's region-drawing order (later-drawn regions first): it equals the
reverse of the draw-order filter, its members are exactly the picked
regions, and it is a sublist of the reversed draw-order list. -/
theorem fsmInteractor_pick_spec (f : FSM) (lx ly : ℚ) :
    FSMInteractor.pick (some f) lx ly =
      (f.regions.filter (fun r => r.pick (lx - r.x) (ly - r.y))).reverse ∧
    (∀ r : Region, r ∈ FSMInteractor.pick (some f) lx ly ↔
        r ∈ f.regions ∧ r.pick (lx - r.x) (ly - r.y) = true) ∧
    (FSMInteractor.pick (some f) lx ly).Sublist f.regions.reverse := by
  refine ⟨fsmPick_eq f lx ly, ?_, ?_⟩
  · intro r
    rw [fsmPick_eq]
    simp [List.mem_filter]
  · rw [fsmPick_eq, ← List.filter_reverse]
    exact List.filter_sublist _

/-- C5 witness: a concrete two-region FSM where both regions contain the
point (6, 6); the frontmost (later-drawn) region comes first. -/
theorem fsmInteractor_pick_spec_witness :
    FSMInteractor.pick
        (some ⟨[⟨1, "A", 0, 0, 10, 10, false, "", true, false, none, none⟩,
                ⟨2, "B", 5, 5, 10, 10, false, "", true, false, none, none⟩]⟩)
        6 6 =
      [⟨2, "B", 5, 5, 10, 10, false, "", true, false, none, none⟩,
       ⟨1, "A", 0, 0, 10, 10, false, "", true, false, none, none⟩] := by
  rw [(fsmInteractor_pick_spec
        ⟨[⟨1, "A", 0, 0, 10, 10, false, "", true, false, none, none⟩,
          ⟨2, "B", 5, 5, 10, 10, false, "", true, false, none, none⟩]⟩ 6 6).1]
  norm_num [Region.pick, List.filter]

/-- C10: with an undefined FSM, `dispatchRawEvent` forwards no event, leaves
the bookkeeping list unchanged and calls no damage, and `pick` returns the
empty list. -/
theorem dispatch_no_fsm (bk : List Region) (what : RawKind) (lx ly : ℚ) :
    dispatchRawEvent none bk what lx ly = ⟨[], bk, 0⟩ ∧
    FSMInteractor.pick none lx ly = [] :=
  ⟨rfl, rfl⟩

/-- The event trace of a dispatch with a defined FSM, spelled out. -/
lemma dispatch_trace_eq (f : FSM) (bk : List Region) (what : RawKind)
    (lx ly : ℚ) :
    (dispatchRawEvent (some f) bk what lx ly).trace =
      (bk.filter (fun r => decide (r ∉ FSMInteractor.pick (some f) lx ly))).map
          (fun r => (EventType.exit, some r)) ++
        ((FSMInteractor.pick (some f) lx ly).filter
            (fun r => decide (r ∉ bk))).map
          (fun r => (EventType.enter, some r)) ++
        kindEvents what (FSMInteractor.pick (some f) lx ly) := rfl

/-- C1: within one `dispatchRawEvent` call with a defined FSM, the events
forwarded to `fsm.actOnEvent` are: first `exit` for every bookkeeping region
no longer picked, then `enter` for every picked region not in the
bookkeeping, then the kind-specific events; and — under the invariant that
the bookkeeping list is in reverse draw order, which holds initially (`[]`)
and is re-established by every dispatch (the final conjunct: bookkeeping
becomes the pick result, itself in reverse draw order) — each of the three
groups lists its regions in reverse region-drawing order (a sublist of the
reversed region list). -/
theorem dispatchRawEvent_order (f : FSM) (bk : List Region) (what : RawKind)
    (lx ly : ℚ) (hbk : bk.Sublist f.regions.reverse) :
    (dispatchRawEvent (some f) bk what lx ly).trace =
      (bk.filter (fun r => decide (r ∉ FSMInteractor.pick (some f) lx ly))).map
          (fun r => (EventType.exit, some r)) ++
        ((FSMInteractor.pick (some f) lx ly).filter
            (fun r => decide (r ∉ bk))).map
          (fun r => (EventType.enter, some r)) ++
        kindEvents what (FSMInteractor.pick (some f) lx ly) ∧
    (bk.filter
        (fun r => decide (r ∉ FSMInteractor.pick (some f) lx ly))).Sublist
      f.regions.reverse ∧
    ((FSMInteractor.pick (some f) lx ly).filter
        (fun r => decide (r ∉ bk))).Sublist f.regions.reverse ∧
    (FSMInteractor.pick (some f) lx ly).Sublist f.regions.reverse ∧
    (dispatchRawEvent (some f) bk what lx ly).bookkeeping =
      FSMInteractor.pick (some f) lx ly := by
  have hcurr : (FSMInteractor.pick (some f) lx ly).Sublist f.regions.reverse := by
    rw [fsmPick_eq, ← List.filter_reverse]
    exact List.filter_sublist _
  exact ⟨dispatch_trace_eq f bk what lx ly, (List.filter_sublist bk).trans hbk,
    (List.filter_sublist _).trans hcurr, hcurr, rfl⟩

/-- C1 witness: a concrete dispatch (two regions, the bookkeeping holding
the frontmost one, in reverse draw order) re-establishes the bookkeeping
invariant. -/
theorem dispatchRawEvent_order_witness :
    (dispatchRawEvent
        (some ⟨[⟨1, "A", 0, 0, 10, 10, false, "", true, false, none, none⟩,
                ⟨2, "B", 5, 5, 10, 10, false, "", true, false, none, none⟩]⟩)
        [⟨2, "B", 5, 5, 10, 10, false, "", true, false, none, none⟩]
        RawKind.press 6 6).bookkeeping =
      FSMInteractor.pick
        (some ⟨[⟨1, "A", 0, 0, 10, 10, false, "", true, false, none, none⟩,
                ⟨2, "B", 5, 5, 10, 10, false, "", true, false, none, none⟩]⟩)
        6 6 :=
  (dispatchRawEvent_order
      ⟨[⟨1, "A", 0, 0, 10, 10, false, "", true, false, none, none⟩,
        ⟨2, "B", 5, 5, 10, 10, false, "", true, false, none, none⟩]⟩
      [⟨2, "B", 5, 5, 10, 10, false, "", true, false, none, none⟩]
      RawKind.press 6 6 (by decide)).2.2.2.2

/-- C6: for a `release` dispatch with a defined FSM: when the current pick
list is non-empty, the `release` events in the trace are exactly one per
picked region (in pick order) and no `release_none` is emitted; when the
pick list is empty, exactly one region-less `release_none` and zero
`release` events are emitted. -/
theorem release_dispatch_spec (f : FSM) (bk : List Region) (lx ly : ℚ) :
    (FSMInteractor.pick (some f) lx ly ≠ [] →
      (dispatchRawEvent (some f) bk RawKind.release lx ly).trace.filter
          (fun e => decide (e.1 = EventType.release)) =
        (FSMInteractor.pick (some f) lx ly).map
          (fun r => (EventType.release, some r)) ∧
      (dispatchRawEvent (some f) bk RawKind.release lx ly).trace.countP
          (fun e => decide (e.1 = EventType.release_none)) = 0) ∧
    (FSMInteractor.pick (some f) lx ly = [] →
      (dispatchRawEvent (some f) bk RawKind.release lx ly).trace.countP
          (fun e => decide (e.1 = EventType.release_none)) = 1 ∧
      (dispatchRawEvent (some f) bk RawKind.release lx ly).trace.countP
          (fun e => decide (e.1 = EventType.release)) = 0) := by
  rw [dispatch_trace_eq]
  constructor
  · intro hne
    have hlen : (FSMInteractor.pick (some f) lx ly).length > 0 :=
      List.length_pos.mpr hne
    have hkind : kindEvents RawKind.release (FSMInteractor.pick (some f) lx ly) =
        (FSMInteractor.pick (some f) lx ly).map
          (fun r => (EventType.release, some r)) := by
      simp [kindEvents, hlen]
    rw [hkind]
    constructor
    · rw [List.filter_append, List.filter_append,
        filter_evtMap_ne EventType.exit EventType.release (by decide),
        filter_evtMap_ne EventType.enter EventType.release (by decide),
        filter_evtMap_self]
      rfl
    · rw [List.countP_append, List.countP_append,
        countP_evtMap_ne EventType.exit EventType.release_none (by decide),
        countP_evtMap_ne EventType.enter EventType.release_none (by decide),
        countP_evtMap_ne EventType.release EventType.release_none (by decide)]
  · intro hempty
    rw [hempty]
    have hkind : kindEvents RawKind.release ([] : List Region) =
        [(EventType.release_none, none)] := rfl
    rw [hkind]
    constructor
    · rw [List.countP_append, List.countP_append,
        countP_evtMap_ne EventType.exit EventType.release_none (by decide),
        countP_evtMap_ne EventType.enter EventType.release_none (by decide)]
      rfl
    · rw [List.countP_append, List.countP_append,
        countP_evtMap_ne EventType.exit EventType.release (by decide),
        countP_evtMap_ne EventType.enter EventType.release (by decide)]
      rfl

/-- `_resizeFromImage` changes only the size: the load flags, location and
image are untouched. -/
lemma resizeFromImage_flags (r : Region) :
    (r.resizeFromImage).1.loaded = r.loaded ∧
    (r.resizeFromImage).1.loadError = r.loadError ∧
    (r.resizeFromImage).1.imageLoc = r.imageLoc ∧
    (r.resizeFromImage).1.image = r.image := by
  rcases him : r.image with _ | img <;>
    simp only [Region.resizeFromImage, him] <;>
    [skip; split_ifs] <;> simp [him]

/-- Every exit of the synchronous prefix of `_startImageLoad` leaves
`loadError = false` (the cache-hit path does so even when the cached entry
is a failure marker). -/
lemma startImageLoadSync_loadError (r : Region) (c : ImageCache) :
    (startImageLoadSync r c).1.loadError = false := by
  unfold startImageLoadSync
  split_ifs <;>
    simp [(resizeFromImage_flags _).2.1]

/-- Completion of a pending load always leaves `loaded = true` (success via
`onload`, failure via `onerror`). -/
lemma completeImageLoad_loaded (env : LoadEnv) (loc : String) (r : Region)
    (c : ImageCache) : (completeImageLoad env loc r c).1.loaded = true := by
  unfold completeImageLoad
  cases env loc <;> simp [(resizeFromImage_flags _).1]

/-- The claimed flag invariant: a failed load is still a terminal loaded
state. -/
def loadFlagInvariant (r : Region) : Prop :=
  r.loadError = true → r.loaded = true

/-- Every observable step preserves the flag invariant. -/
lemma stepRegion_invariant (env : LoadEnv) (w : RegionWorld) (op : RegionOp)
    (h : loadFlagInvariant w.reg) : loadFlagInvariant (stepRegion env w op).reg := by
  cases op with
  | setX v =>
      show loadFlagInvariant (w.reg.setX v).1
      unfold Region.setX
      split_ifs <;> simpa using h
  | setY v =>
      show loadFlagInvariant (w.reg.setY v).1
      unfold Region.setY
      split_ifs <;> simpa using h
  | setW v =>
      show loadFlagInvariant (w.reg.setW v).1
      unfold Region.setW
      split_ifs <;> simpa using h
  | setH v =>
      show loadFlagInvariant (w.reg.setH v).1
      unfold Region.setH
      split_ifs <;> simpa using h
  | setParent v =>
      show loadFlagInvariant (w.reg.setParent v).1
      unfold Region.setParent
      split_ifs <;> simpa using h
  | setImageLoc v =>
      show loadFlagInvariant (w.reg.setImageLoc v w.cache).1
      unfold Region.setImageLoc
      split_ifs with hv
      · exact h
      · intro he
        simp [startImageLoadSync_loadError] at he
  | completeLoad =>
      intro he
      rcases hp : w.pending with _ | ⟨loc, rest⟩ <;>
        simp only [stepRegion, hp] at he ⊢
      · exact h he
      · exact completeImageLoad_loaded env loc w.reg w.cache

/-- Running any list of steps preserves the flag invariant. -/
lemma runRegionOps_invariant (env : LoadEnv) (ops : List RegionOp)
    (w : RegionWorld) (h : loadFlagInvariant w.reg) :
    loadFlagInvariant (runRegionOps env w ops).reg := by
  induction ops generalizing w with
  | nil => exact h
  | cons op rest ih => exact ih _ (stepRegion_invariant env w op h)

/-- C9: `loadError = true implies loaded = true` at every observable point of
a Region's lifecycle: for every load environment, constructor input and list
of completed steps (mutator calls and load completions), the resulting state
satisfies the implication. -/
theorem region_loadError_implies_loaded (env : LoadEnv) (id : Nat)
    (name imageLoc : String) (x y w h : ℚ) (parent : Option Nat)
    (cache : ImageCache) (ops : List RegionOp)
    (hfail : (runRegionOps env
        (initRegionWorld id name imageLoc x y w h parent cache) ops).reg.loadError
      = true) :
    (runRegionOps env
        (initRegionWorld id name imageLoc x y w h parent cache) ops).reg.loaded
      = true := by
  refine runRegionOps_invariant env ops _ ?_ hfail
  intro he
  have h0 : (initRegionWorld id name imageLoc x y w h parent cache).reg.loadError
      = false := by
    simpa [initRegionWorld, mkRegion] using startImageLoadSync_loadError _ cache
  simp [h0] at he

/-- C9 witness: a region whose load of "bad.png" fails ends with
`loadError = true`, and the theorem gives `loaded = true` there. -/
theorem region_loadError_implies_loaded_witness :
    (runRegionOps (fun _ => none)
        (initRegionWorld 1 "R" "bad.png" 0 0 10 10 none [])
        [RegionOp.completeLoad]).reg.loaded = true :=
  region_loadError_implies_loaded (fun _ => none) 1 "R" "bad.png" 0 0 10 10
    none [] [RegionOp.completeLoad] rfl

/-- C3 counterexample: an Action with the unrecognized type "bogus" — not a
member of the closed vocabulary — executes to a normal return with no
effects, not to a hard failure unwinding the dispatch. -/
theorem action_execute_unknown_counterexample :
    ("bogus" ∉ actionTypeStrings) ∧
    Action.execute ⟨"bogus", "r", "p", none, []⟩ EventType.press none
      = Except.ok [] :=
  ⟨by decide, rfl⟩

/-- C3 (amended): executing an Action whose actionType is not a recognized
member of the closed vocabulary is a silent no-op: `execute` performs no
effect and returns normally (its switch has no default case), so the current
dispatch is not aborted. -/
theorem action_execute_unknown_silent (a : Action) (t : EventType)
    (rg : Option Nat) (h : a.actType ∉ actionTypeStrings) :
    a.execute t rg = Except.ok [] := by
  simp only [actionTypeStrings, List.mem_cons, List.not_mem_nil, or_false,
    not_or] at h
  obtain ⟨h1, h2, h3, h4, h5, h6, h7, h8, h9, h10, h11, h12, h13, h14⟩ := h
  simp [Action.execute, h1, h2, h3, h4, h5, h6, h7, h8, h9, h10, h11, h12,
    h13, h14]

/-- C3 witness (for the amended claim): the unknown type "mystery" executes
to a normal, effect-free return. -/
theorem action_execute_unknown_silent_witness :
    Action.execute ⟨"mystery", "r", "p", some 1, []⟩ EventType.press none
      = Except.ok [] :=
  action_execute_unknown_silent ⟨"mystery", "r", "p", some 1, []⟩
    EventType.press none (by decide)

/-- The search loop of `bindRegion` returns the first name match (and stops
there); with no match it applies the region-optional rule. -/
lemma bindRegionLoop_spec (b : Action) (l : List Region) :
    (∀ r : Region, l.find? (fun q => q.name == b.onRegionName) = some r →
        bindRegionLoop b l = ({ b with onRegion := some r.id }, [])) ∧
    (l.find? (fun q => q.name == b.onRegionName) = none →
        bindRegionLoop b l =
          if b.actType = "none" ∨ b.actType = "print" ∨ b.actType = "print_event"
          then ({ b with onRegion := none }, [])
          else (b, [bindErrMsg b])) := by
  induction l with
  | nil =>
      refine ⟨fun r hr => by simp at hr, fun _ => rfl⟩
  | cons q rest ih =>
      by_cases hq : q.name = b.onRegionName
      · constructor
        · intro r hr
          rw [List.find?_cons_of_pos _ (by simpa using hq)] at hr
          obtain rfl : q = r := Option.some.inj hr
          simp [bindRegionLoop, hq]
        · intro hn
          rw [List.find?_cons_of_pos _ (by simpa using hq)] at hn
          cases hn
      · constructor
        · intro r hr
          rw [List.find?_cons_of_neg _ (by simpa using hq)] at hr
          simpa [bindRegionLoop, hq] using ih.1 r hr
        · intro hn
          rw [List.find?_cons_of_neg _ (by simpa using hq)] at hn
          simpa [bindRegionLoop, hq] using ih.2 hn

/-- C8: `bindRegion` stores the region list and binds to the FIRST region in
it whose name equals the action's target name, returning at once; with no
match, the region-optional types (`none`, `print`, `print_event`) are left
unbound silently, and any other type emits exactly one binding error through
the diagnostic channel while the method still returns normally (the FSM's
construction is not aborted). -/
theorem action_bindRegion_spec (a : Action) (rl : List Region) :
    (∀ r : Region, rl.find? (fun q => q.name == a.onRegionName) = some r →
        a.bindRegion rl = ({ a with regionLs := rl, onRegion := some r.id }, [])) ∧
    (rl.find? (fun q => q.name == a.onRegionName) = none →
      ((a.actType = "none" ∨ a.actType = "print" ∨ a.actType = "print_event") →
          a.bindRegion rl = ({ a with regionLs := rl, onRegion := none }, [])) ∧
      (¬(a.actType = "none" ∨ a.actType = "print" ∨ a.actType = "print_event") →
          a.bindRegion rl = ({ a with regionLs := rl }, [bindErrMsg a]))) := by
  have hb := bindRegionLoop_spec { a with regionLs := rl } rl
  constructor
  · intro r hr
    exact hb.1 r hr
  · intro hn
    have h2 := hb.2 hn
    constructor
    · intro hopt
      have hopt' : ({ a with regionLs := rl } : Action).actType = "none" ∨
          ({ a with regionLs := rl } : Action).actType = "print" ∨
          ({ a with regionLs := rl } : Action).actType = "print_event" := hopt
      rw [Action.bindRegion, h2, if_pos hopt']
    · intro hnopt
      have hnopt' : ¬(({ a with regionLs := rl } : Action).actType = "none" ∨
          ({ a with regionLs := rl } : Action).actType = "print" ∨
          ({ a with regionLs := rl } : Action).actType = "print_event") := hnopt
      rw [Action.bindRegion, h2, if_neg hnopt']
      rfl

/-- C8 witness: a `set_image` action targeting "B" binds to the region named
"B" (the first and only match) with no diagnostic. -/
theorem action_bindRegion_spec_witness :
    Action.bindRegion ⟨"set_image", "B", "img.png", none, []⟩
        [⟨1, "A", 0, 0, 10, 10, false, "", true, false, none, none⟩,
         ⟨2, "B", 5, 5, 10, 10, false, "", true, false, none, none⟩] =
      ({ actType := "set_image", onRegionName := "B", param := "img.png",
         onRegion := some 2,
         regionLs :=
           [⟨1, "A", 0, 0, 10, 10, false, "", true, false, none, none⟩,
            ⟨2, "B", 5, 5, 10, 10, false, "", true, false, none, none⟩] }, []) :=
  (action_bindRegion_spec ⟨"set_image", "B", "img.png", none, []⟩
      [⟨1, "A", 0, 0, 10, 10, false, "", true, false, none, none⟩,
       ⟨2, "B", 5, 5, 10, 10, false, "", true, false, none, none⟩]).1
    ⟨2, "B", 5, 5, 10, 10, false, "", true, false, none, none⟩ (by decide)

/-- C2 (evaluation at the failing input): a first Region is constructed
requesting "bad.png" (empty cache) and its load fails.  The failure sets its
`loaded = true` and `loadError = true`, but — because the `onerror` handler
rejects the awaited promise, aborting `_startImageLoad` before the
`_cacheImage` call — the cache stays empty, so the failure is NOT recorded.
A second Region then constructed with the same location therefore does not
synchronously adopt the failure: it starts a fresh load attempt and sits at
`loaded = false`.  And even with the absent marker present in the cache, the
hit path of `_startImageLoad` reports `loadError = false`, not `true`. -/
theorem failed_load_not_permanent_eval :
    ((completeImageLoad (fun _ => none) "bad.png"
        (mkRegion 1 "A" "bad.png" 0 0 10 10 none []).1
        (mkRegion 1 "A" "bad.png" 0 0 10 10 none []).2.1).1.loaded = true ∧
     (completeImageLoad (fun _ => none) "bad.png"
        (mkRegion 1 "A" "bad.png" 0 0 10 10 none []).1
        (mkRegion 1 "A" "bad.png" 0 0 10 10 none []).2.1).2.1
       = ([] : ImageCache)) ∧
    ((completeImageLoad (fun _ => none) "bad.png"
        (mkRegion 1 "A" "bad.png" 0 0 10 10 none []).1
        (mkRegion 1 "A" "bad.png" 0 0 10 10 none []).2.1).1.loadError = true) ∧
    (ImageCache.imageIsCached
        (completeImageLoad (fun _ => none) "bad.png"
          (mkRegion 1 "A" "bad.png" 0 0 10 10 none []).1
          (mkRegion 1 "A" "bad.png" 0 0 10 10 none []).2.1).2.1 "bad.png"
      = false) ∧
    ((mkRegion 2 "B" "bad.png" 0 0 10 10 none []).2.2.2
        = LoadPhase.awaiting "bad.png" ∧
     (mkRegion 2 "B" "bad.png" 0 0 10 10 none []).1.loaded = false) ∧
    ((startImageLoadSync
        ⟨3, "C", 0, 0, 10, 10, false, "bad.png", false, false, none, none⟩
        [("bad.png", none)]).1.loaded = true ∧
     (startImageLoadSync
        ⟨3, "C", 0, 0, 10, 10, false, "bad.png", false, false, none, none⟩
        [("bad.png", none)]).1.loadError = false ∧
     (startImageLoadSync
        ⟨3, "C", 0, 0, 10, 10, false, "bad.png", false, false, none, none⟩
        [("bad.png", none)]).2.2.2 = LoadPhase.done) := by
  decide

/-- C7 (evaluation at the failing input): a Region whose `imageLoc` is "a"
is assigned the different, uncached location "bad" whose load then fails.
The assignment stores the new location and the lifecycle runs to completion,
but the total number of `damage()` calls is 0 (the failure path skips the
post-`await` `damage()`), refuting "assigning a different value triggers
`damage()`" for `imageLocation`. -/
theorem imageLoc_change_no_damage_eval :
    runRegionOps (fun _ => none)
        ⟨⟨1, "R", 0, 0, 10, 10, false, "a", true, false, none, none⟩, [], [], 0⟩
        [RegionOp.setImageLoc "bad", RegionOp.completeLoad] =
      ⟨⟨1, "R", 0, 0, 10, 10, false, "bad", true, true, some blankImg, none⟩,
       [], [], 0⟩ := by
  decide

/-- C6 witness: a release over a one-region FSM at a point outside it (empty
pick list) yields exactly one `release_none` event. -/
theorem release_dispatch_spec_witness :
    (dispatchRawEvent
        (some ⟨[⟨1, "A", 0, 0, 10, 10, false, "", true, false, none, none⟩]⟩)
        [] RawKind.release 50 50).trace.countP
        (fun e => decide (e.1 = EventType.release_none)) = 1 := by
  refine ((release_dispatch_spec
      ⟨[⟨1, "A", 0, 0, 10, 10, false, "", true, false, none, none⟩]⟩
      [] 50 50).2 ?_).1
  rw [fsmPick_eq]
  norm_num [Region.pick, List.filter]

end SSUI
